import Mathlib

/-!
Verification of the external-edit bridge in `src/extensions/amp-frame.ts`
(the `editText` function, its launch-argument builder `getLaunchArgs`, the
conversation-history scan `getLastAssistantText`, and the keybinding
shortcut handler registered by `editProposedText`).

The TypeScript is shallowly embedded: every external interaction
(environment variables, UI availability, `pi.exec` launch results, the
sentinel-polling observations, file contents read back) is supplied by a
`World` record, and `editText` becomes a pure function from `World` and
`Params` to an optional outcome (`none` means the polling loop never
terminated within the supplied observation trace) together with an
`Effects` record tracking the temp-directory lifecycle and the launch
attempts that were made.
-/

/-- An observation of one iteration of the sentinel polling loop:
whether the sentinel file exists, whether the abort signal has fired,
and the elapsed milliseconds since the loop started. -/
structure PollObs where
  doneExists : Bool
  aborted : Bool
  elapsed : Nat
deriving DecidableEq

/-- How one run of the polling loop ended. -/
inductive PollRes where
  | done
  | aborted
  | timeout
deriving DecidableEq

/-- Result of a `pi.exec` launch: exit code and captured stderr. -/
structure ExecResult where
  code : Int
  stderr : String
deriving DecidableEq

/-- The `EditMode` union type. -/
inductive EditMode where
  | zellijFloating
  | zellijPane
  | uiEditor
deriving DecidableEq

/-- The closed failure-reason taxonomy. -/
inductive Reason where
  | noInteractiveUi
  | zellijLaunchFailed
  | timeout
  | aborted
deriving DecidableEq

/-- The `EditDetails` record; optional TypeScript fields become `Option`
(`exitCode` is `number | null`, hence `Option (Option Int)`: `none` means
the field is absent, `some none` means it is `null`). -/
structure EditDetails where
  ok : Bool
  mode : Option EditMode := none
  changed : Option Bool := none
  cancelled : Option Bool := none
  reason : Option Reason := none
  code : Option Int := none
  exitCode : Option (Option Int) := none
  stderr : Option String := none
  tempFile : Option String := none
deriving DecidableEq

/-- The `EditResult` record returned by `editText`. -/
structure EditResult where
  text : String
  details : EditDetails
deriving DecidableEq

/-- Filesystem and process effects of one `editText` invocation:
whether the temp directory was created (`mkdtemp`), whether it was removed
(the `finally` block's `rm`), whether the draft file was written, and the
argument lists of the `zellij` launch attempts in order. -/
structure Effects where
  created : Bool
  removed : Bool
  draftWritten : Bool
  launches : List (List String)
deriving DecidableEq

/-- Whether the temp directory still exists after the invocation returns. -/
def Effects.dirExistsAfter (e : Effects) : Bool :=
  e.created && !e.removed

/-- The `Params` record of the tool.  `timeoutSeconds` is a JS number,
modelled as a rational. -/
structure Params where
  text : String
  purpose : Option String := none
  floating : Option Bool := none
  fileExtension : Option String := none
  editorCommand : Option String := none
  timeoutSeconds : Option ℚ := none
  cleanup : Option Bool := none
deriving DecidableEq

/-- Everything the bridge observes from its environment during one
invocation. -/
structure World where
  hasUI : Bool
  zellijVar : Option String
  cwd : String
  tmpPath : String
  envPiEditTextEditor : Option String
  envVisual : Option String
  envEditor : Option String
  launch1 : ExecResult
  launch2 : ExecResult
  uiEditorResult : Option String
  pollObs : List PollObs
  draftContent : String
  doneContent : String
deriving DecidableEq

/-- JS `Boolean(x)` for an optional environment-variable string:
`undefined` and the empty string are falsy. -/
def jsTruthy (o : Option String) : Bool :=
  match o with
  | none => false
  | some s => !s.isEmpty

/-- `sanitizeExtension`: keep only ASCII alphanumerics, default `md`. -/
def sanitizeExtension (ext : Option String) : String :=
  match ext with
  | none => "md"
  | some e =>
    if e.isEmpty then "md"
    else
      let cleaned := String.mk (e.toList.filter (fun c => c.isAlpha || c.isDigit))
      if cleaned.length > 0 then cleaned else "md"

/-- `getEditorCommand`: parameter override, then the three environment
variables in order, then the built-in default. -/
def getEditorCommand (w : World) (p : Params) : String :=
  (((p.editorCommand.orElse (fun _ => w.envPiEditTextEditor)).orElse
      (fun _ => w.envVisual)).orElse (fun _ => w.envEditor)).getD "nvim"

/-- `getLaunchArgs`: the `zellij run` argument list. -/
def getLaunchArgs (cwd : String) (floating : Bool) (scriptPath textPath donePath editorCommand : String) :
    List String :=
  ["run", "--close-on-exit", "--cwd", cwd]
    ++ (if floating then ["--floating", "--pinned", "true"] else [])
    ++ ["--name", "pi-edit", "--", scriptPath, textPath, donePath, editorCommand]

/-- The effective timeout in milliseconds:
`Math.max(1000, Math.floor((params.timeoutSeconds ?? 1800) * 1000))`. -/
def timeoutMsOf (p : Params) : Int :=
  max 1000 (Int.floor ((p.timeoutSeconds.getD 1800) * 1000))

/-- JS `String.prototype.trim`: drop whitespace from both ends. -/
def trimChars (s : String) : String :=
  String.mk (((s.toList.dropWhile Char.isWhitespace).reverse.dropWhile Char.isWhitespace).reverse)

/-- `Number.parseInt(s, 10)`: skip leading whitespace, optional sign,
then the longest digit run; `none` models `NaN`. -/
def leadingDigits : List Char → List Char
  | [] => []
  | c :: rest => if c.isDigit then c :: leadingDigits rest else []

def digitsToNat (ds : List Char) : Nat :=
  ds.foldl (fun acc c => acc * 10 + (c.toNat - 48)) 0

def parseIntJS (s : String) : Option Int :=
  let cs := s.toList.dropWhile Char.isWhitespace
  let signed : Bool × List Char :=
    match cs with
    | '-' :: r => (true, r)
    | '+' :: r => (false, r)
    | _ => (false, cs)
  let ds := leadingDigits signed.2
  if ds.isEmpty then none
  else if signed.1 then some (-(digitsToNat ds : Int)) else some (digitsToNat ds : Int)

/-- The sentinel polling loop (`while (!(await fileExists(donePath)))`):
each iteration first checks the sentinel, then the abort signal, then the
timeout clock; `none` means the observation trace ran out with the loop
still running. -/
def pollLoop (timeoutMs : Int) : List PollObs → Option PollRes
  | [] => none
  | o :: rest =>
    if o.doneExists then some PollRes.done
    else if o.aborted then some PollRes.aborted
    else if (o.elapsed : Int) > timeoutMs then some PollRes.timeout
    else pollLoop timeoutMs rest

/-- The launch attempt that ends up governing the zellij branch, with its
mode: the first launch, unless it failed and floating was requested, in
which case the single fixed-pane retry. -/
def effectiveLaunch (w : World) (floating : Bool) : ExecResult × EditMode :=
  if (w.launch1.code != 0) && floating then (w.launch2, EditMode.zellijPane)
  else (w.launch1, if floating then EditMode.zellijFloating else EditMode.zellijPane)

/-- The in-process UI editor outcome (`ctx.ui.editor` returning
`string | undefined`). -/
def uiOutcome (w : World) (originalText : String) : EditResult :=
  let finalUiText := w.uiEditorResult.getD originalText
  { text := finalUiText
    details :=
      { ok := true
        mode := some EditMode.uiEditor
        changed := some (finalUiText != originalText)
        cancelled := some w.uiEditorResult.isNone } }

/-- Shallow embedding of `editText`.  Returns `none` only when the
polling loop never terminates within the supplied observations. -/
def editText (w : World) (p : Params) : Option (EditResult × Effects) :=
  let originalText := p.text
  let floating := p.floating.getD true
  let fileExtension := sanitizeExtension p.fileExtension
  let timeoutMs := timeoutMsOf p
  let cleanup := p.cleanup.getD true
  let editorCommand := getEditorCommand w p
  let inZellij := jsTruthy w.zellijVar
  if !w.hasUI && !inZellij then
    some ({ text := originalText
            details := { ok := false, reason := some Reason.noInteractiveUi } },
          { created := false, removed := false, draftWritten := false, launches := [] })
  else
    let textPath := w.tmpPath ++ "/draft." ++ fileExtension
    let donePath := w.tmpPath ++ "/editor.done"
    let scriptPath := w.tmpPath ++ "/run-editor.sh"
    if inZellij then
      let args1 := getLaunchArgs w.cwd floating scriptPath textPath donePath editorCommand
      let doRetry := (w.launch1.code != 0) && floating
      let launch := (effectiveLaunch w floating).1
      let mode := (effectiveLaunch w floating).2
      let launches :=
        if doRetry then
          [args1, getLaunchArgs w.cwd false scriptPath textPath donePath editorCommand]
        else [args1]
      let eff : Effects :=
        { created := true, removed := cleanup, draftWritten := true, launches := launches }
      if launch.code != 0 then
        if !w.hasUI then
          some ({ text := originalText
                  details :=
                    { ok := false
                      reason := some Reason.zellijLaunchFailed
                      code := some launch.code
                      stderr := some launch.stderr } }, eff)
        else
          some (uiOutcome w originalText, eff)
      else
        match pollLoop timeoutMs w.pollObs with
        | none => none
        | some PollRes.aborted =>
          some ({ text := originalText
                  details := { ok := false, reason := some Reason.aborted, mode := some mode } },
                eff)
        | some PollRes.timeout =>
          some ({ text := originalText
                  details := { ok := false, reason := some Reason.timeout, mode := some mode } },
                eff)
        | some PollRes.done =>
          let editedText := w.draftContent
          let exitCode := parseIntJS (trimChars w.doneContent)
          some ({ text := editedText
                  details :=
                    { ok := true
                      mode := some mode
                      changed := some (editedText != originalText)
                      exitCode := some exitCode
                      tempFile := if cleanup then none else some textPath } },
                eff)
    else
      some (uiOutcome w originalText,
            { created := true, removed := cleanup, draftWritten := true, launches := [] })

/-- One conversation-branch message part (`part.type`, `part.text` when it
is a string). -/
structure MsgPart where
  type : String
  text : Option String
deriving DecidableEq

/-- A message: role and content (`none` when `content` is not an array). -/
structure Msg where
  role : String
  content : Option (List MsgPart)
deriving DecidableEq

/-- A session-branch entry: its `type` tag and optional message. -/
structure Entry where
  type : String
  message : Option Msg
deriving DecidableEq

/-- The joined-and-trimmed assistant text of one entry, when the entry is
an assistant message with array content. -/
def assistantText (e : Entry) : Option String :=
  if e.type = "message" then
    e.message.bind (fun m =>
      if m.role = "assistant" then
        m.content.map (fun parts =>
          trimChars (String.intercalate "\n"
            ((parts.filter (fun part => part.type == "text" && part.text.isSome)).map
              (fun part => part.text.getD ""))))
      else none)
  else none

/-- `getLastAssistantText`: scan the branch backward for the first entry
whose assistant text is non-empty. -/
def getLastAssistantText (branch : List Entry) : Option String :=
  (branch.reverse.filterMap (fun e =>
    (assistantText e).bind (fun t => if t.length > 0 then some t else none))).head?

/-- The text the keybinding shortcut hands to `editText`: the current
input buffer when its trimmed form is non-empty, else the last assistant
text, else the buffer itself. -/
def shortcutInitialText (current : String) (branch : List Entry) : String :=
  if (trimChars current).length > 0 then current
  else (getLastAssistantText branch).getD current

/-- The parameters the shortcut handler passes to `editText`. -/
def shortcutParams (current : String) (branch : List Entry) : Params :=
  { text := shortcutInitialText current branch
    purpose := some "current input"
    fileExtension := some "md"
    floating := some true
    cleanup := some true }

/-- The shortcut handler, modelled as the final input-buffer content:
unchanged without a UI or on a failed outcome, the edited text on an ok
outcome. -/
def shortcutHandler (w : World) (current : String) (branch : List Entry) : String :=
  if !w.hasUI then current
  else
    match editText w (shortcutParams current branch) with
    | none => current
    | some (r, _) => if r.details.ok then r.text else current

/-!
Concrete scenarios used by the witness theorems below.
-/

/-- No UI surface, multiplexer session variable unset. -/
def wNoUi : World :=
  { hasUI := false, zellijVar := none, cwd := "", tmpPath := "/tmp/x"
    envPiEditTextEditor := none, envVisual := none, envEditor := none
    launch1 := { code := 0, stderr := "" }, launch2 := { code := 0, stderr := "" }
    uiEditorResult := none, pollObs := [], draftContent := "", doneContent := "" }

def pAbc : Params := { text := "abc" }

def pEmpty : Params := { text := "" }

/-- Zellij session, floating launch succeeds, sentinel appears at once,
draft unmodified, sentinel holds exit code 0. -/
def wDone : World :=
  { hasUI := true, zellijVar := some "s", cwd := "/home", tmpPath := "/tmp/x"
    envPiEditTextEditor := none, envVisual := none, envEditor := none
    launch1 := { code := 0, stderr := "" }, launch2 := { code := 0, stderr := "" }
    uiEditorResult := none
    pollObs := [{ doneExists := true, aborted := false, elapsed := 5 }]
    draftContent := "abc", doneContent := "0\n" }

def rDone : EditResult :=
  { text := "abc"
    details :=
      { ok := true, mode := some EditMode.zellijFloating
        changed := some false, exitCode := some (some 0) } }

def effDone : Effects :=
  { created := true, removed := true, draftWritten := true
    launches :=
      [getLaunchArgs "/home" true "/tmp/x/run-editor.sh" "/tmp/x/draft.md" "/tmp/x/editor.done" "nvim"] }

/-- Timeout parameter of one second (the floor). -/
def pTm1 : Params := { text := "abc", timeoutSeconds := some 1 }

/-- A polling tick in which the sentinel is absent, the abort signal has
fired, and the timeout clock has also expired. -/
def oBoth : PollObs := { doneExists := false, aborted := true, elapsed := 2000 }

/-- A benign polling tick: sentinel absent, no abort, clock unexpired. -/
def oBenign : PollObs := { doneExists := false, aborted := false, elapsed := 0 }

/-- Zellij session, launch ok; the loop runs one benign tick and then a
tick that sees both an abort and an expired timeout. -/
def wAbort : World :=
  { hasUI := true, zellijVar := some "s", cwd := "/home", tmpPath := "/tmp/x"
    envPiEditTextEditor := none, envVisual := none, envEditor := none
    launch1 := { code := 0, stderr := "" }, launch2 := { code := 0, stderr := "" }
    uiEditorResult := none, pollObs := [oBenign, oBoth]
    draftContent := "abc", doneContent := "0\n" }

/-- Zellij session without a UI surface; both launch attempts fail. -/
def wLaunchFail : World :=
  { hasUI := false, zellijVar := some "s", cwd := "", tmpPath := "/tmp/x"
    envPiEditTextEditor := none, envVisual := none, envEditor := none
    launch1 := { code := 2, stderr := "bad1" }, launch2 := { code := 3, stderr := "boom" }
    uiEditorResult := none, pollObs := [], draftContent := "", doneContent := "" }

def rZlf : EditResult :=
  { text := "abc"
    details :=
      { ok := false, reason := some Reason.zellijLaunchFailed
        code := some 3, stderr := some "boom" } }

def effZlf : Effects :=
  { created := true, removed := true, draftWritten := true
    launches :=
      [getLaunchArgs "" true "/tmp/x/run-editor.sh" "/tmp/x/draft.md" "/tmp/x/editor.done" "nvim",
       getLaunchArgs "" false "/tmp/x/run-editor.sh" "/tmp/x/draft.md" "/tmp/x/editor.done" "nvim"] }

/-- Like `wDone` but the sentinel content does not parse as an integer. -/
def wBadDone : World :=
  { hasUI := true, zellijVar := some "s", cwd := "/home", tmpPath := "/tmp/x"
    envPiEditTextEditor := none, envVisual := none, envEditor := none
    launch1 := { code := 0, stderr := "" }, launch2 := { code := 0, stderr := "" }
    uiEditorResult := none
    pollObs := [{ doneExists := true, aborted := false, elapsed := 5 }]
    draftContent := "abc", doneContent := "oops" }

/-- A branch entry carrying the assistant text "hi". -/
def entryHi : Entry :=
  { type := "message"
    message := some { role := "assistant", content := some [{ type := "text", text := some "hi" }] } }

/-!
Theorems.
-/

/-- Shared shape analysis of every terminal outcome of `editText`: on a
failed outcome the original text is returned with a reason from the closed
taxonomy, and the effects record is either the pre-`mkdtemp` early return
or has the directory created, removed exactly when cleanup is enabled, and
the draft written. -/
theorem editText_shape (w : World) (p : Params) (r : EditResult) (eff : Effects)
    (h : editText w p = some (r, eff)) :
    (r.details.ok = false → r.text = p.text ∧ r.details.reason.isSome = true)
    ∧ (eff.created = false ∧ eff.removed = false ∧ eff.draftWritten = false
       ∨ eff.created = true ∧ eff.removed = p.cleanup.getD true ∧ eff.draftWritten = true) := by
  simp only [editText] at h
  split at h
  · simp only [Option.some.injEq, Prod.mk.injEq] at h
    obtain ⟨h1, h2⟩ := h
    subst h1; subst h2
    exact ⟨fun _ => ⟨rfl, rfl⟩, Or.inl ⟨rfl, rfl, rfl⟩⟩
  · split at h
    · split at h
      · split at h
        · simp only [Option.some.injEq, Prod.mk.injEq] at h
          obtain ⟨h1, h2⟩ := h
          subst h1; subst h2
          exact ⟨fun _ => ⟨rfl, rfl⟩, Or.inr ⟨rfl, rfl, rfl⟩⟩
        · simp only [Option.some.injEq, Prod.mk.injEq] at h
          obtain ⟨h1, h2⟩ := h
          subst h1; subst h2
          refine ⟨fun hf => ?_, Or.inr ⟨rfl, rfl, rfl⟩⟩
          simp [uiOutcome] at hf
      · split at h
        · exact Option.noConfusion h
        · simp only [Option.some.injEq, Prod.mk.injEq] at h
          obtain ⟨h1, h2⟩ := h
          subst h1; subst h2
          exact ⟨fun _ => ⟨rfl, rfl⟩, Or.inr ⟨rfl, rfl, rfl⟩⟩
        · simp only [Option.some.injEq, Prod.mk.injEq] at h
          obtain ⟨h1, h2⟩ := h
          subst h1; subst h2
          exact ⟨fun _ => ⟨rfl, rfl⟩, Or.inr ⟨rfl, rfl, rfl⟩⟩
        · simp only [Option.some.injEq, Prod.mk.injEq] at h
          obtain ⟨h1, h2⟩ := h
          subst h1; subst h2
          refine ⟨fun hf => ?_, Or.inr ⟨rfl, rfl, rfl⟩⟩
          simp at hf
    · simp only [Option.some.injEq, Prod.mk.injEq] at h
      obtain ⟨h1, h2⟩ := h
      subst h1; subst h2
      refine ⟨fun hf => ?_, Or.inr ⟨rfl, rfl, rfl⟩⟩
      simp [uiOutcome] at hf

/-- C1: every invocation outcome of the edit bridge contains a text
string, and on every failure path (ok is false, reason one of the closed
taxonomy) that text equals the original, unmodified input text. -/
theorem editText_failure_returns_original (w : World) (p : Params) (r : EditResult) (eff : Effects)
    (h : editText w p = some (r, eff)) (hfail : r.details.ok = false) :
    r.text = p.text ∧ r.details.reason.isSome = true :=
  (editText_shape w p r eff h).1 hfail

def rNoUi : EditResult :=
  { text := "abc", details := { ok := false, reason := some Reason.noInteractiveUi } }

def effNone : Effects :=
  { created := false, removed := false, draftWritten := false, launches := [] }

theorem editText_failure_returns_original_witness :
    editText wNoUi pAbc = some (rNoUi, effNone) ∧ rNoUi.details.ok = false
    ∧ (rNoUi.text = pAbc.text ∧ rNoUi.details.reason.isSome = true) :=
  ⟨rfl, rfl, editText_failure_returns_original wNoUi pAbc rNoUi effNone rfl rfl⟩

/-- C2: for every terminal outcome, when cleanup is enabled (its default)
the temp directory created for the invocation no longer exists afterward;
when cleanup is disabled nothing is removed and the created directory is
retained together with the written draft file. -/
theorem editText_cleanup_guarantee (w : World) (p : Params) (r : EditResult) (eff : Effects)
    (h : editText w p = some (r, eff)) :
    (p.cleanup.getD true = true → eff.dirExistsAfter = false)
    ∧ (p.cleanup.getD true = false →
        eff.removed = false ∧ (eff.created = true → eff.dirExistsAfter = true ∧ eff.draftWritten = true)) := by
  rcases (editText_shape w p r eff h).2 with hc | hc
  · obtain ⟨h1, h2, h3⟩ := hc
    exact ⟨fun _ => by simp [Effects.dirExistsAfter, h1, h2],
           fun _ => ⟨h2, fun hcr => absurd (h1 ▸ hcr) (by simp)⟩⟩
  · obtain ⟨h1, h2, h3⟩ := hc
    constructor
    · intro hcl
      simp [Effects.dirExistsAfter, h1, h2, hcl]
    · intro hcl
      refine ⟨h2.trans hcl, fun _ => ⟨?_, h3⟩⟩
      simp [Effects.dirExistsAfter, h1, h2, hcl]

theorem editText_cleanup_guarantee_witness :
    editText wDone pAbc = some (rDone, effDone) ∧ pAbc.cleanup.getD true = true
    ∧ effDone.dirExistsAfter = false :=
  ⟨rfl, rfl, (editText_cleanup_guarantee wDone pAbc rDone effDone rfl).1 rfl⟩

/-- C3: for all input text, including the empty string, when no UI
surface is available and the multiplexer session variable is unset the
bridge fails immediately: the outcome text equals the input and the
reason is no-interactive-ui. -/
theorem editText_no_ui_no_zellij (w : World) (p : Params)
    (h1 : w.hasUI = false) (h2 : w.zellijVar = none) :
    editText w p =
      some ({ text := p.text, details := { ok := false, reason := some Reason.noInteractiveUi } },
            { created := false, removed := false, draftWritten := false, launches := [] }) := by
  simp [editText, h1, h2, jsTruthy]

theorem editText_no_ui_no_zellij_witness :
    wNoUi.hasUI = false ∧ wNoUi.zellijVar = none
    ∧ editText wNoUi pEmpty =
        some ({ text := "", details := { ok := false, reason := some Reason.noInteractiveUi } },
              { created := false, removed := false, draftWritten := false, launches := [] }) :=
  ⟨rfl, rfl, editText_no_ui_no_zellij wNoUi pEmpty rfl rfl⟩

/-- Helper: the polling loop ignores benign ticks (sentinel absent, no
abort, clock unexpired), so it reduces to the loop on the remaining
trace. -/
theorem pollLoop_append_benign (t : Int) (pre tail : List PollObs)
    (hpre : ∀ b ∈ pre, b.doneExists = false ∧ b.aborted = false ∧ ¬ (b.elapsed : Int) > t) :
    pollLoop t (pre ++ tail) = pollLoop t tail := by
  induction pre with
  | nil => rfl
  | cons b bs ih =>
    obtain ⟨h1, h2, h3⟩ := hpre b (List.mem_cons_self b bs)
    simp only [List.cons_append, pollLoop, h1, h2, Bool.false_eq_true, if_false]
    rw [if_neg h3]
    exact ih (fun x hx => hpre x (List.mem_cons_of_mem b hx))

/-- C4: in the polling loop the abort signal is checked before the
timeout clock on every iteration: after any number of benign ticks, a
tick in which both the abort signal has fired and the timeout has
expired reports reason aborted, never timeout. -/
theorem editText_abort_beats_timeout (w : World) (p : Params)
    (pre : List PollObs) (o : PollObs) (rest : List PollObs)
    (hz : jsTruthy w.zellijVar = true)
    (hl : (effectiveLaunch w (p.floating.getD true)).1.code = 0)
    (hobs : w.pollObs = pre ++ o :: rest)
    (hpre : ∀ b ∈ pre,
      b.doneExists = false ∧ b.aborted = false ∧ ¬ (b.elapsed : Int) > timeoutMsOf p)
    (hdone : o.doneExists = false)
    (habort : o.aborted = true)
    (_htime : (o.elapsed : Int) > timeoutMsOf p) :
    (editText w p).map Prod.fst =
      some { text := p.text
             details :=
               { ok := false, reason := some Reason.aborted
                 mode := some (effectiveLaunch w (p.floating.getD true)).2 } } := by
  have hp : pollLoop (timeoutMsOf p) w.pollObs = some PollRes.aborted := by
    rw [hobs, pollLoop_append_benign (timeoutMsOf p) pre (o :: rest) hpre]
    simp [pollLoop, hdone, habort]
  simp only [editText, hz, hl, hp, Bool.not_true, Bool.and_false,
    Bool.false_eq_true, if_false, if_true, bne_self_eq_false, Bool.false_and]
  rfl

/-- Helper: the effective timeout of `pTm1` is the one-second floor. -/
theorem timeoutMs_pTm1 : timeoutMsOf pTm1 = 1000 := by
  simp [timeoutMsOf, pTm1]

/-- Helper: the benign tick of the witness trace really is benign for the
`pTm1` timeout. -/
theorem oBenign_benign :
    ∀ b ∈ [oBenign],
      b.doneExists = false ∧ b.aborted = false ∧ ¬ (b.elapsed : Int) > timeoutMsOf pTm1 := by
  intro b hb
  simp only [List.mem_singleton] at hb
  subst hb
  refine ⟨rfl, rfl, ?_⟩
  rw [timeoutMs_pTm1]
  decide

theorem editText_abort_beats_timeout_witness :
    (oBoth.elapsed : Int) > timeoutMsOf pTm1
    ∧ (editText wAbort pTm1).map Prod.fst =
        some { text := "abc"
               details :=
                 { ok := false, reason := some Reason.aborted
                   mode := some EditMode.zellijFloating } } :=
  ⟨by rw [timeoutMs_pTm1]; decide,
   editText_abort_beats_timeout wAbort pTm1 [oBenign] oBoth [] rfl rfl rfl
     oBenign_benign rfl rfl (by rw [timeoutMs_pTm1]; decide)⟩

/-- C5: round-trip idempotence: on a successful zellij outcome, if the
draft file read back equals the original input then the outcome text
equals the input and the changed flag is false. -/
theorem editText_roundtrip_unchanged (w : World) (p : Params) (r : EditResult) (eff : Effects)
    (h : editText w p = some (r, eff))
    (hmode : r.details.mode = some EditMode.zellijFloating ∨ r.details.mode = some EditMode.zellijPane)
    (hok : r.details.ok = true)
    (hdraft : w.draftContent = p.text) :
    r.text = p.text ∧ r.details.changed = some false := by
  simp only [editText] at h
  split at h
  · simp only [Option.some.injEq, Prod.mk.injEq] at h
    obtain ⟨h1, h2⟩ := h
    subst h1
    simp at hok
  · split at h
    · split at h
      · split at h
        · simp only [Option.some.injEq, Prod.mk.injEq] at h
          obtain ⟨h1, h2⟩ := h
          subst h1
          simp at hok
        · simp only [Option.some.injEq, Prod.mk.injEq] at h
          obtain ⟨h1, h2⟩ := h
          subst h1
          simp [uiOutcome] at hmode
      · split at h
        · exact Option.noConfusion h
        · simp only [Option.some.injEq, Prod.mk.injEq] at h
          obtain ⟨h1, h2⟩ := h
          subst h1
          simp at hok
        · simp only [Option.some.injEq, Prod.mk.injEq] at h
          obtain ⟨h1, h2⟩ := h
          subst h1
          simp at hok
        · simp only [Option.some.injEq, Prod.mk.injEq] at h
          obtain ⟨h1, h2⟩ := h
          subst h1
          exact ⟨hdraft, by simp [hdraft]⟩
    · simp only [Option.some.injEq, Prod.mk.injEq] at h
      obtain ⟨h1, h2⟩ := h
      subst h1
      simp [uiOutcome] at hmode

theorem editText_roundtrip_unchanged_witness :
    editText wDone pAbc = some (rDone, effDone) ∧ wDone.draftContent = pAbc.text
    ∧ (rDone.text = pAbc.text ∧ rDone.details.changed = some false) :=
  ⟨rfl, rfl,
   editText_roundtrip_unchanged wDone pAbc rDone effDone rfl (Or.inl rfl) rfl rfl⟩

/-- C7: on sentinel appearance the outcome is ok regardless of the
editor's own exit code: the text is the draft file content, the changed
flag is the string inequality against the original, and the parsed exit
code is surfaced in the record. -/
theorem editText_sentinel_success (w : World) (p : Params)
    (hz : jsTruthy w.zellijVar = true)
    (hl : (effectiveLaunch w (p.floating.getD true)).1.code = 0)
    (hpoll : pollLoop (timeoutMsOf p) w.pollObs = some PollRes.done) :
    (editText w p).map Prod.fst =
      some { text := w.draftContent
             details :=
               { ok := true
                 mode := some (effectiveLaunch w (p.floating.getD true)).2
                 changed := some (w.draftContent != p.text)
                 exitCode := some (parseIntJS (trimChars w.doneContent))
                 tempFile :=
                   if p.cleanup.getD true then none
                   else some (w.tmpPath ++ "/draft." ++ sanitizeExtension p.fileExtension) } } := by
  simp only [editText, hz, hl, hpoll, Bool.not_true, Bool.and_false, Bool.false_eq_true,
    if_false, if_true, bne_self_eq_false, Bool.false_and]
  rfl

theorem editText_sentinel_success_witness :
    pollLoop (timeoutMsOf pAbc) wDone.pollObs = some PollRes.done
    ∧ (editText wDone pAbc).map Prod.fst =
        some { text := "abc"
               details :=
                 { ok := true, mode := some EditMode.zellijFloating
                   changed := some false, exitCode := some (some 0)
                   tempFile := none } } :=
  ⟨rfl, editText_sentinel_success wDone pAbc rfl rfl rfl⟩

/-- C10: when the sentinel file content does not parse as an integer the
outcome still reports ok with the exit code field null rather than
failing or surfacing a NaN. -/
theorem editText_bad_sentinel_null_exit (w : World) (p : Params)
    (hz : jsTruthy w.zellijVar = true)
    (hl : (effectiveLaunch w (p.floating.getD true)).1.code = 0)
    (hpoll : pollLoop (timeoutMsOf p) w.pollObs = some PollRes.done)
    (hbad : parseIntJS (trimChars w.doneContent) = none) :
    ∀ r eff, editText w p = some (r, eff) →
      r.details.ok = true ∧ r.details.exitCode = some none := by
  intro r eff h
  simp only [editText, hz, hl, hpoll, hbad, Bool.not_true, Bool.and_false, Bool.false_eq_true,
    if_false, if_true, bne_self_eq_false, Bool.false_and] at h
  simp only [Option.some.injEq, Prod.mk.injEq] at h
  obtain ⟨h1, h2⟩ := h
  subst h1
  exact ⟨rfl, rfl⟩

theorem editText_bad_sentinel_null_exit_witness :
    parseIntJS (trimChars wBadDone.doneContent) = none
    ∧ ∃ r eff, editText wBadDone pAbc = some (r, eff)
        ∧ r.details.ok = true ∧ r.details.exitCode = some none := by
  refine ⟨rfl, ?_⟩
  refine ⟨{ text := "abc"
            details :=
              { ok := true, mode := some EditMode.zellijFloating
                changed := some false, exitCode := some none, tempFile := none } },
          { created := true, removed := true, draftWritten := true
            launches :=
              [getLaunchArgs "/home" true "/tmp/x/run-editor.sh" "/tmp/x/draft.md" "/tmp/x/editor.done" "nvim"] },
          rfl, ?_⟩
  exact editText_bad_sentinel_null_exit wBadDone pAbc rfl rfl rfl rfl _ _ rfl

/-- C6: when the multiplexer is present, a floating launch was requested
and the first launch fails, exactly one fixed-pane retry is made; if the
retry also fails the bridge delegates to the in-process UI editor when a
UI surface exists and otherwise reports zellij-launch-failed with the
failed launch's exit code and stderr. -/
theorem editText_launch_fallback (w : World) (p : Params)
    (hz : jsTruthy w.zellijVar = true)
    (hfl : p.floating.getD true = true)
    (hfail1 : w.launch1.code ≠ 0) :
    ∀ r eff, editText w p = some (r, eff) →
      eff.launches =
        [getLaunchArgs w.cwd true (w.tmpPath ++ "/run-editor.sh")
           (w.tmpPath ++ "/draft." ++ sanitizeExtension p.fileExtension)
           (w.tmpPath ++ "/editor.done") (getEditorCommand w p),
         getLaunchArgs w.cwd false (w.tmpPath ++ "/run-editor.sh")
           (w.tmpPath ++ "/draft." ++ sanitizeExtension p.fileExtension)
           (w.tmpPath ++ "/editor.done") (getEditorCommand w p)]
      ∧ (w.launch2.code ≠ 0 → w.hasUI = false →
          r = { text := p.text
                details :=
                  { ok := false, reason := some Reason.zellijLaunchFailed
                    code := some w.launch2.code, stderr := some w.launch2.stderr } })
      ∧ (w.launch2.code ≠ 0 → w.hasUI = true → r = uiOutcome w p.text) := by
  intro r eff h
  have hbne : (w.launch1.code != 0) = true := by simp [hfail1]
  simp only [editText, hz, hfl, effectiveLaunch, hbne, Bool.not_true, Bool.and_false,
    Bool.false_eq_true, if_false, if_true, Bool.and_true, Bool.true_and] at h
  split at h
  · split at h
    · simp only [Option.some.injEq, Prod.mk.injEq] at h
      obtain ⟨h1, h2⟩ := h
      subst h1; subst h2
      refine ⟨rfl, fun _ _ => rfl, fun _ hui => ?_⟩
      rename_i hnui _
      simp [hui] at hnui
    · simp only [Option.some.injEq, Prod.mk.injEq] at h
      obtain ⟨h1, h2⟩ := h
      subst h1; subst h2
      refine ⟨rfl, fun _ hui => ?_, fun _ _ => rfl⟩
      rename_i hnui _
      simp [hui] at hnui
  · rename_i hl2
    have hl2' : w.launch2.code = 0 := by
      simpa using hl2
    split at h
    · exact Option.noConfusion h
    all_goals
      simp only [Option.some.injEq, Prod.mk.injEq] at h
      obtain ⟨h1, h2⟩ := h
      subst h1; subst h2
      exact ⟨rfl, fun hne _ => absurd hl2' hne, fun hne _ => absurd hl2' hne⟩

theorem editText_launch_fallback_witness :
    wLaunchFail.launch1.code ≠ 0 ∧ wLaunchFail.launch2.code ≠ 0
    ∧ effZlf.launches =
        [getLaunchArgs "" true "/tmp/x/run-editor.sh" "/tmp/x/draft.md" "/tmp/x/editor.done" "nvim",
         getLaunchArgs "" false "/tmp/x/run-editor.sh" "/tmp/x/draft.md" "/tmp/x/editor.done" "nvim"]
    ∧ rZlf = { text := "abc"
               details :=
                 { ok := false, reason := some Reason.zellijLaunchFailed
                   code := some wLaunchFail.launch2.code
                   stderr := some wLaunchFail.launch2.stderr } } :=
  ⟨by decide, by decide,
   ((editText_launch_fallback wLaunchFail pAbc rfl rfl (by decide)) rZlf effZlf rfl).1,
   ((editText_launch_fallback wLaunchFail pAbc rfl rfl (by decide)) rZlf effZlf rfl).2.1
     (by decide) rfl⟩

/-- C8 counterexample: the claim says the shortcut uses the current input
buffer whenever it is non-empty, but with the whitespace-only (hence
non-empty) buffer consisting of one space and a history holding assistant
text, the text handed to the editor is the assistant text, not the
buffer. -/
theorem shortcut_nonempty_buffer_cex :
    (" " ≠ "") ∧ shortcutInitialText " " [entryHi] ≠ " " := by
  constructor
  · decide
  · decide

/-- C8 (amended): the shortcut uses the current input buffer when its
trimmed form is non-empty; when the trimmed buffer is empty it uses the
most recent non-empty assistant text found scanning the history backward
(falling back to the buffer itself when there is none); on a completed
(ok) outcome the buffer becomes the edited text, otherwise it is left
unchanged. -/
theorem shortcut_amended (current : String) (branch : List Entry) :
    (0 < (trimChars current).length → shortcutInitialText current branch = current)
    ∧ ((trimChars current).length = 0 →
        shortcutInitialText current branch = (getLastAssistantText branch).getD current)
    ∧ (∀ (w : World) (r : EditResult) (eff : Effects), w.hasUI = true →
        editText w (shortcutParams current branch) = some (r, eff) →
        shortcutHandler w current branch = if r.details.ok then r.text else current) := by
  refine ⟨fun h => ?_, fun h => ?_, fun w r eff hui heq => ?_⟩
  · simp [shortcutInitialText, h]
  · simp [shortcutInitialText, h]
  · simp only [shortcutHandler, hui, Bool.not_true, Bool.false_eq_true, if_false, heq]

theorem shortcut_amended_witness :
    0 < (trimChars "x").length ∧ shortcutInitialText "x" [entryHi] = "x" :=
  ⟨by decide, (shortcut_amended "x" [entryHi]).1 (by decide)⟩

/-- C9: the effective wait timeout is at least one second, defaults to
1800 seconds when no timeoutSeconds parameter is given, and in general is
max(1000, floor(timeoutSeconds * 1000)) milliseconds. -/
theorem timeout_default_and_floor (p : Params) :
    1000 ≤ timeoutMsOf p
    ∧ (p.timeoutSeconds = none → timeoutMsOf p = 1800000)
    ∧ (∀ q : ℚ, p.timeoutSeconds = some q →
        timeoutMsOf p = max 1000 (Int.floor (q * 1000))) := by
  refine ⟨le_max_left _ _, fun h => ?_, fun q h => ?_⟩
  · rw [timeoutMsOf, h]
    norm_num
  · rw [timeoutMsOf, h]
    rfl

theorem timeout_default_and_floor_witness :
    pAbc.timeoutSeconds = none ∧ timeoutMsOf pAbc = 1800000 :=
  ⟨rfl, (timeout_default_and_floor pAbc).2.1 rfl⟩
